import Mathlib

/-!
Shallow embedding of `process_pdfs.py` (PDF outline extractor).

Text is modelled as Lean `String` over ASCII-oriented character classes
(Python's `str.strip`, `str.lower`, `\d`, `\s` are modelled at ASCII
granularity, which covers all text this development reasons about).
Font sizes and vertical coordinates (Python floats) are modelled as `ℚ`;
the source compares them with plain `>=`/`>` and no epsilon, which `ℚ`
preserves exactly.

The external PDF-layout collaborator (`pdfminer`) is out of scope: a page
is modelled as the list of its text containers, each already exposing
`get_text()`, `average_fontsize` and `y0` (the `isinstance(LTTextContainer)`
filter is the collaborator boundary).  A collaborator failure is modelled
as an `Except.error` input to `extract_pdfminer_outline`, mirroring the
`try/except` that wraps the whole extraction.
-/

namespace ProcessPdfs

/-- Configuration: `FONT_THRESHOLDS` dict, in insertion order (H1 first). -/
def FONT_THRESHOLDS : List (String × ℚ) :=
  [("H1", 16), ("H2", 14), ("H3", 12), ("H4", 10)]

def MAX_PAGES : ℕ := 50

def Y_THRESHOLD : ℚ := 8

def MIN_TEXT_LENGTH : ℕ := 4

/-- `EXCLUDED_HEADINGS = \x7b"figure", "table", "appendix"\x7d`. -/
def EXCLUDED_HEADINGS : List String := ["figure", "table", "appendix"]

def TITLE_MIN_FONT_SIZE : ℚ := 9

/-- Dict lookup `FONT_THRESHOLDS[lvl]` (0 as a dead default; every lookup
in the source uses a present key). -/
def fontThreshold (lvl : String) : ℚ :=
  ((FONT_THRESHOLDS.find? (fun p => p.1 = lvl)).map (·.2)).getD 0

/-- Python `\s` at ASCII granularity. -/
def isPySpace (c : Char) : Bool :=
  c = ' ' || c = '\t' || c = '\n' || c = '\r' || c = '\x0b' || c = '\x0c'

/-- Python `str.strip()` on a char list. -/
def pyStripList (l : List Char) : List Char :=
  ((l.dropWhile isPySpace).reverse.dropWhile isPySpace).reverse

/-- Python `str.strip()`. -/
def pyStrip (s : String) : String :=
  (pyStripList s.toList).asString

/-- Python `str.lower()` (ASCII). -/
def pyLower (s : String) : String :=
  (s.toList.map Char.toLower).asString

/-- Character class of the regex `[\d\s\-–.():]`. -/
def isNumPunctChar (c : Char) : Bool :=
  c.isDigit || isPySpace c || c = '-' || c = '–' || c = '.' ||
  c = '(' || c = ')' || c = ':'

/-- Truthiness of `re.match(r'^[\d\s\-–.():]+$', t)`: the whole (nonempty)
string consists of characters of the class. -/
def reMatchNumPunct (t : String) : Bool :=
  !t.toList.isEmpty && t.toList.all isNumPunctChar

/-- `is_heading(text, avg_size)` from the source: strip, lower, then the
four conditions. -/
def is_heading (text : String) (avg_size : ℚ) : Bool :=
  let t := pyLower (pyStrip text)
  decide (MIN_TEXT_LENGTH ≤ t.length) &&
  decide (fontThreshold "H3" ≤ avg_size) &&
  !reMatchNumPunct t &&
  !decide (t ∈ EXCLUDED_HEADINGS)

/-- `is_potential_title(text, avg_size)` from the source: strip (no
lower-casing), then the three conditions. -/
def is_potential_title (text : String) (avg_size : ℚ) : Bool :=
  let t := pyStrip text
  decide (MIN_TEXT_LENGTH ≤ t.length) &&
  decide (TITLE_MIN_FONT_SIZE ≤ avg_size) &&
  !reMatchNumPunct t

/-- A text box as built in `extract_pdfminer_outline`'s comprehension:
`text` = `element.get_text().strip()`, `size` = `average_fontsize(element)`,
`y0` = `element.y0`.  The same shape models a raw layout element before
the comprehension (then `text` is the raw `get_text()`). -/
structure TextBox where
  text : String
  size : ℚ
  y0 : ℚ
deriving DecidableEq

/-- `average_fontsize`: arithmetic mean of the character sizes, `0.0` when
there are none. -/
def average_fontsize (sizes : List ℚ) : ℚ :=
  if sizes = [] then 0 else sizes.sum / (sizes.length : ℚ)

/-- Descending-`y0` order used by `sorted(boxes, key=lambda b: b['y0'],
reverse=True)` (non-strict, so a stable sort w.r.t. it matches Python's
stable sort). -/
def boxGE (a b : TextBox) : Prop := b.y0 ≤ a.y0

instance : DecidableRel boxGE := fun a b => inferInstanceAs (Decidable (b.y0 ≤ a.y0))

instance : IsTotal TextBox boxGE := ⟨fun a b => le_total b.y0 a.y0⟩

instance : IsTrans TextBox boxGE := ⟨fun _ _ _ h h' => le_trans h' h⟩

/-- `sorted(boxes, key=lambda b: b['y0'], reverse=True)`: a stable sort by
descending `y0`. -/
def pySortDescBox (boxes : List TextBox) : List TextBox :=
  List.insertionSort boxGE boxes

/-- The walk of `group_boxes_by_y`: `current` is the open group, `last` the
previous box's `y0`; groups are emitted in formation order, and the final
`if current_group: groups.append(current_group)` is the terminal case. -/
def group_go (y_thresh : ℚ) : List TextBox → List TextBox → ℚ → List (List TextBox)
  | [], current, _ => if current = [] then [] else [current]
  | b :: rest, current, last =>
    if |b.y0 - last| ≤ y_thresh then
      group_go y_thresh rest (current ++ [b]) b.y0
    else
      current :: group_go y_thresh rest [b] b.y0

/-- `group_boxes_by_y(boxes, y_thresh)` from the source. -/
def group_boxes_by_y (boxes : List TextBox) (y_thresh : ℚ) : List (List TextBox) :=
  match pySortDescBox boxes with
  | [] => []
  | b :: rest => group_go y_thresh rest [b] b.y0

/-- `get_heading_level(avg_size)`: first `FONT_THRESHOLDS` entry (in dict
order) whose threshold is `≤ avg_size`. -/
def get_heading_level (avg_size : ℚ) : Option String :=
  (FONT_THRESHOLDS.find? (fun p => decide (p.2 ≤ avg_size))).map (·.1)

/-- Rank of a heading level tag: H1 highest (rank 1). -/
def levelRank (lvl : String) : ℕ :=
  if lvl = "H1" then 1 else if lvl = "H2" then 2 else if lvl = "H3" then 3
  else if lvl = "H4" then 4 else 5

/-- An outline entry as appended in the loop, `y0` (the cluster's min y0)
still present for sorting. -/
structure Entry where
  level : String
  text : String
  page : ℕ
  y0 : ℚ
deriving DecidableEq

/-- An outline entry after `item.pop('y0', None)`: exactly the keys
`level`, `text`, `page`. -/
structure OutEntry where
  level : String
  text : String
  page : ℕ
deriving DecidableEq

/-- The record returned by `extract_pdfminer_outline`. -/
structure OutlineResult where
  title : String
  outline : List OutEntry
deriving DecidableEq

/-- Dropping the internal `y0` field. -/
def stripEntry (e : Entry) : OutEntry :=
  ⟨e.level, e.text, e.page⟩

/-- The sort key `(x['page'], -x['y0'])`, as a non-strict order: page
ascending, then `y0` descending (non-strict, so a stable sort w.r.t. it
matches Python's stable `list.sort`). -/
def entryLE (a b : Entry) : Prop :=
  a.page < b.page ∨ (a.page = b.page ∧ b.y0 ≤ a.y0)

instance : DecidableRel entryLE := fun a b =>
  inferInstanceAs (Decidable (a.page < b.page ∨ (a.page = b.page ∧ b.y0 ≤ a.y0)))

instance : IsTotal Entry entryLE :=
  ⟨fun a b => by
    rcases Nat.lt_trichotomy a.page b.page with h | h | h
    · exact Or.inl (Or.inl h)
    · rcases le_total b.y0 a.y0 with h' | h'
      · exact Or.inl (Or.inr ⟨h, h'⟩)
      · exact Or.inr (Or.inr ⟨h.symm, h'⟩)
    · exact Or.inr (Or.inl h)⟩

instance : IsTrans Entry entryLE :=
  ⟨fun a b c hab hbc => by
    rcases hab with h1 | ⟨h1, h1'⟩ <;> rcases hbc with h2 | ⟨h2, h2'⟩
    · exact Or.inl (h1.trans h2)
    · exact Or.inl (h2 ▸ h1)
    · exact Or.inl (h1 ▸ h2)
    · exact Or.inr ⟨h1.trans h2, h2'.trans h1'⟩⟩

/-- Mutable loop state of `extract_pdfminer_outline`: the accumulated
`outline`, `title_candidate`, `largest_size` and the `is_first_text`
flag. -/
structure ExtState where
  outline : List Entry
  title_candidate : Option String
  largest_size : ℚ
  is_first_text : Bool
deriving DecidableEq

/-- Initial state: `outline = []`, `title_candidate, largest_size = None,
0.0`, `is_first_text = True`. -/
def initState : ExtState :=
  ⟨[], none, 0, true⟩

/-- `min(box['y0'] for box in group)` (0 is a dead default: the loop only
evaluates it on nonempty groups). -/
def minY0 : List TextBox → ℚ
  | [] => 0
  | b :: bs => bs.foldl (fun m x => min m x.y0) b.y0

/-- `"\n".join(box['text'] for box in group)`. -/
def mergedText (g : List TextBox) : String :=
  String.intercalate "\n" (g.map (·.text))

/-- `sum(box['size'] for box in group) / len(group)`. -/
def clusterSize (g : List TextBox) : ℚ :=
  (g.map (·.size)).sum / (g.length : ℚ)

/-- The body of the `for group in group_boxes_by_y(boxes)` loop: skip empty
groups, try the one-shot page-1 title check, else heading-classify. -/
def processGroup (pn : ℕ) (st : ExtState) (g : List TextBox) : ExtState :=
  if g = [] then st
  else
    let t := mergedText g
    let s := clusterSize g
    if pn = 0 ∧ st.is_first_text = true ∧ is_potential_title t s = true then
      if st.largest_size < s then
        { st with title_candidate := some t, largest_size := s, is_first_text := false }
      else
        { st with is_first_text := false }
    else if is_heading t s = true then
      match get_heading_level s with
      | some lv => { st with outline := st.outline ++ [⟨lv, t, pn + 1, minY0 g⟩] }
      | none => st
    else st

/-- The comprehension building `boxes` for one page: keep the text
containers whose average font size strictly exceeds `TITLE_MIN_FONT_SIZE`,
stripping their text. -/
def mkBoxes (layout : List TextBox) : List TextBox :=
  layout.filterMap fun e =>
    if TITLE_MIN_FONT_SIZE < e.size then some ⟨pyStrip e.text, e.size, e.y0⟩ else none

/-- One iteration of the page loop (page index `pn`, 0-based). -/
def processPage (pn : ℕ) (st : ExtState) (layout : List TextBox) : ExtState :=
  (group_boxes_by_y (mkBoxes layout) Y_THRESHOLD).foldl (processGroup pn) st

/-- The whole page loop: `for page_num, layout in
enumerate(list(pages)[:max_pages])`. -/
def extractState (pages : List (List TextBox)) (max_pages : ℕ) : ExtState :=
  ((pages.take max_pages).enum).foldl (fun st pl => processPage pl.1 st pl.2) initState

/-- Python `cand or default` where `cand` is `None` or a string (`None` and
`""` are falsy). -/
def pyOr (cand : Option String) (default : String) : String :=
  match cand with
  | some t => if t = "" then default else t
  | none => default

/-- Python `str.replace("_", " ")`: every underscore becomes a space. -/
def replaceUnderscore (s : String) : String :=
  (s.toList.map fun c => if c = '_' then ' ' else c).asString

/-- Python `str.replace(".pdf", "")`: remove every occurrence of `.pdf`,
left to right, non-overlapping. -/
def removeDotPdfList : List Char → List Char
  | '.' :: 'p' :: 'd' :: 'f' :: rest => removeDotPdfList rest
  | c :: rest => c :: removeDotPdfList rest
  | [] => []

def removeDotPdf (s : String) : String :=
  (removeDotPdfList s.toList).asString

/-- Python `str.title()` (ASCII): a letter after a non-letter is
upper-cased, a letter after a letter is lower-cased. -/
def pyTitleList : Bool → List Char → List Char
  | _, [] => []
  | prev, c :: rest =>
    if c.isAlpha then
      (if prev then c.toLower else c.toUpper) :: pyTitleList true rest
    else
      c :: pyTitleList false rest

def pyTitle (s : String) : String :=
  (pyTitleList false s.toList).asString

/-- `file_name.replace("_", " ").replace(".pdf", "").title()` — the default
title used when no title candidate was locked. -/
def defaultTitle (file_name : String) : String :=
  pyTitle (removeDotPdf (replaceUnderscore file_name))

/-- Modelled from the claim's words, for comparison with `defaultTitle`:
derive the default title by stripping the `.pdf` extension (the trailing
occurrence only), replacing underscores with spaces and title-casing. -/
def defaultTitleSpec (file_name : String) : String :=
  let l := file_name.toList
  let stem :=
    if l.length ≥ 4 ∧ l.drop (l.length - 4) = ['.', 'p', 'd', 'f'] then
      l.take (l.length - 4)
    else l
  pyTitle (replaceUnderscore stem.asString)

/-- `extract_pdfminer_outline(file_bytes, file_name, max_pages)`.  The
collaborator call `extract_pages` is modelled by the `Except` input: an
`error` stands for any exception raised while obtaining or walking the
pages, landing in the `except` branch. -/
def extract_pdfminer_outline (input : Except String (List (List TextBox)))
    (file_name : String) (max_pages : ℕ := MAX_PAGES) : OutlineResult :=
  match input with
  | .error _ => { title := file_name, outline := [] }
  | .ok pages =>
    let st := extractState pages max_pages
    { title := pyOr st.title_candidate (defaultTitle file_name),
      outline := (List.insertionSort entryLE st.outline).map stripEntry }

/-- The clusters of the document's first page (as the loop sees them). -/
def firstPageClusters (pages : List (List TextBox)) : List (List TextBox) :=
  match pages with
  | [] => []
  | p :: _ => group_boxes_by_y (mkBoxes p) Y_THRESHOLD

/-- The outline entries a single non-title cluster contributes. -/
def headingEntryList (pn : ℕ) (g : List TextBox) : List Entry :=
  if is_heading (mergedText g) (clusterSize g) = true then
    match get_heading_level (clusterSize g) with
    | some lv => [⟨lv, mergedText g, pn + 1, minY0 g⟩]
    | none => []
  else []

/-- A one-page document whose first cluster fails the title test and whose
second cluster passes it (clusters are 50 apart, beyond `Y_THRESHOLD`). -/
def cexPagesC1 : List (List TextBox) :=
  [[⟨"abc", 20, 100⟩, ⟨"My Title", 20, 50⟩]]

/-- A one-page document whose first cluster is consumed as title and whose
second cluster becomes an H2 outline entry. -/
def witPagesC6 : List (List TextBox) :=
  [[⟨"Chapter One", 14, 700⟩, ⟨"Background Data", 14, 600⟩]]

end ProcessPdfs

namespace ProcessPdfs

section Theorems

attribute [local semireducible] Rat.add Rat.mul Rat.inv Rat.sub

theorem group_go_flatten (th : ℚ) :
    ∀ (l cur : List TextBox) (last : ℚ), cur ≠ [] →
      (group_go th l cur last).flatten = cur ++ l := by
  intro l
  induction l with
  | nil => intro cur last h; simp [group_go, h]
  | cons b rest ih =>
    intro cur last h
    simp only [group_go]
    split
    · rw [ih (cur ++ [b]) b.y0 (by simp)]; simp
    · rw [List.flatten_cons, ih [b] b.y0 (by simp)]; simp

theorem group_go_ne_nil (th : ℚ) :
    ∀ (l cur : List TextBox) (last : ℚ) (g : List TextBox), cur ≠ [] →
      g ∈ group_go th l cur last → g ≠ [] := by
  intro l
  induction l with
  | nil =>
    intro cur last g h hg
    simp only [group_go] at hg
    rw [if_neg h, List.mem_singleton] at hg
    exact hg ▸ h
  | cons b rest ih =>
    intro cur last g h hg
    simp only [group_go] at hg
    split at hg
    · exact ih (cur ++ [b]) b.y0 g (by simp) hg
    · rcases List.mem_cons.mp hg with rfl | hg'
      · exact h
      · exact ih [b] b.y0 g (by simp) hg'

theorem group_boxes_flatten (boxes : List TextBox) (th : ℚ) :
    (group_boxes_by_y boxes th).flatten = pySortDescBox boxes := by
  unfold group_boxes_by_y
  cases h : pySortDescBox boxes with
  | nil => rfl
  | cons b rest => exact group_go_flatten th rest [b] b.y0 (by simp)

theorem group_boxes_mem_ne_nil (boxes : List TextBox) (th : ℚ) (g : List TextBox) :
    g ∈ group_boxes_by_y boxes th → g ≠ [] := by
  unfold group_boxes_by_y
  cases h : pySortDescBox boxes with
  | nil => intro hg; exact absurd hg (List.not_mem_nil g)
  | cons b rest => exact fun hg => group_go_ne_nil th rest [b] b.y0 g (by simp) hg

theorem group_go_chain (th : ℚ) :
    ∀ (l cur : List TextBox) (lastB : TextBox), cur ≠ [] →
      List.Chain (fun a b => |b.y0 - a.y0| ≤ th) lastB l →
      group_go th l cur lastB.y0 = [cur ++ l] := by
  intro l
  induction l with
  | nil => intro cur lastB h _; simp [group_go, h]
  | cons b rest ih =>
    intro cur lastB h hch
    cases hch with
    | cons hr hch' =>
      simp only [group_go, if_pos hr]
      rw [ih (cur ++ [b]) b (by simp) hch']
      simp

/-- Claim C3: grouping chains proximity transitively.  `group_boxes_by_y`
walks the boxes sorted by `y0` descending, appending a box to the current
group iff its `y0` is within `Y_THRESHOLD` of the immediately preceding
box's `y0` (the comparison point is updated at every step), so a chain of
pairwise-close boxes forms one group: fragments at `y0 = 100, 94, 88` with
threshold 8 all land in one group although `|100 - 88| = 12 > 8`.  Empty
input yields no groups; a single box yields one singleton group. -/
theorem claim_C3 :
    (∀ (boxes : List TextBox) (th : ℚ), boxes ≠ [] →
      List.Chain' (fun a b => |b.y0 - a.y0| ≤ th) (pySortDescBox boxes) →
      group_boxes_by_y boxes th = [pySortDescBox boxes]) ∧
    group_boxes_by_y [⟨"a", 12, 100⟩, ⟨"b", 12, 94⟩, ⟨"c", 12, 88⟩] 8 =
      [[⟨"a", 12, 100⟩, ⟨"b", 12, 94⟩, ⟨"c", 12, 88⟩]] ∧
    (∀ th : ℚ, group_boxes_by_y [] th = []) ∧
    (∀ (b : TextBox) (th : ℚ), group_boxes_by_y [b] th = [[b]]) := by
  refine ⟨?_, by decide, fun th => rfl, fun b th => rfl⟩
  intro boxes th hne hch
  unfold group_boxes_by_y
  cases h : pySortDescBox boxes with
  | nil =>
    have hp : (pySortDescBox boxes).Perm boxes := List.perm_insertionSort boxGE boxes
    rw [h] at hp
    exact absurd hp.symm.eq_nil hne
  | cons b rest =>
    rw [h] at hch
    show group_go th rest [b] b.y0 = [b :: rest]
    have := group_go_chain th rest [b] b (by simp) hch
    rw [this]
    simp

theorem claim_C3_witness :
    group_boxes_by_y [⟨"x", 10, 60⟩, ⟨"y", 10, 54⟩] 8 =
      [pySortDescBox [⟨"x", 10, 60⟩, ⟨"y", 10, 54⟩]] :=
  claim_C3.1 [⟨"x", 10, 60⟩, ⟨"y", 10, 54⟩] 8 (by decide) (by
    rw [show pySortDescBox [⟨"x", 10, 60⟩, ⟨"y", 10, 54⟩] =
        [⟨"x", 10, 60⟩, ⟨"y", 10, 54⟩] from by decide]
    exact List.chain'_cons.mpr ⟨by decide, List.chain'_singleton _⟩)

/-- Claim C10: the groups returned by `group_boxes_by_y` partition the
input: concatenated in order they are exactly the input sorted by `y0`
descending, they are a permutation of the input (every box appears exactly
once), and no group is empty. -/
theorem claim_C10 : ∀ (boxes : List TextBox) (th : ℚ),
    (group_boxes_by_y boxes th).flatten = pySortDescBox boxes ∧
    ((group_boxes_by_y boxes th).flatten).Perm boxes ∧
    ∀ g ∈ group_boxes_by_y boxes th, g ≠ [] := by
  intro boxes th
  refine ⟨group_boxes_flatten boxes th, ?_, fun g hg => group_boxes_mem_ne_nil boxes th g hg⟩
  rw [group_boxes_flatten]
  exact List.perm_insertionSort boxGE boxes

theorem claim_C10_witness :
    ([⟨"x", 10, 60⟩] : List TextBox) ≠ [] :=
  (claim_C10 [⟨"x", 10, 60⟩, ⟨"y", 10, 10⟩] 8).2.2 [⟨"x", 10, 60⟩] (by decide)

/-- Claim C7: a collaborator/extraction failure (modelled as the `error`
input, the `except` branch of the source) degrades the document to
`\x7b"title": file_name, "outline": []\x7d` instead of propagating. -/
theorem claim_C7 : ∀ (err fn : String) (m : ℕ),
    extract_pdfminer_outline (.error err) fn m = { title := fn, outline := [] } :=
  fun _ _ _ => rfl

theorem fontThreshold_H3 : fontThreshold "H3" = 12 := by decide

theorem get_heading_level_ifs (s : ℚ) :
    get_heading_level s =
      if 16 ≤ s then some "H1" else if 14 ≤ s then some "H2"
      else if 12 ≤ s then some "H3" else if 10 ≤ s then some "H4" else none := by
  unfold get_heading_level FONT_THRESHOLDS
  by_cases h16 : (16 : ℚ) ≤ s <;> by_cases h14 : (14 : ℚ) ≤ s <;>
    by_cases h12 : (12 : ℚ) ≤ s <;> by_cases h10 : (10 : ℚ) ≤ s <;>
    simp [List.find?, h16, h14, h12, h10]

theorem get_heading_level_mono (s1 s2 : ℚ) (l1 l2 : String) (hs : s1 ≤ s2)
    (h1 : get_heading_level s1 = some l1) (h2 : get_heading_level s2 = some l2) :
    levelRank l2 ≤ levelRank l1 := by
  rw [get_heading_level_ifs] at h1 h2
  split_ifs at h1 h2 <;>
    first
      | linarith
      | (injection h1 with e1; injection h2 with e2; subst e1; subst e2; decide)

/-- Claim C4: the threshold table is consulted in descending order
(H1 = 16 first), the first level whose threshold is at most the size wins,
and consequently level assignment is monotonic: a larger size never gets a
level lower in the hierarchy (numerically larger rank). -/
theorem claim_C4 :
    (∀ s : ℚ, get_heading_level s =
      if 16 ≤ s then some "H1" else if 14 ≤ s then some "H2"
      else if 12 ≤ s then some "H3" else if 10 ≤ s then some "H4" else none) ∧
    (∀ (s1 s2 : ℚ) (l1 l2 : String), s1 ≤ s2 →
      get_heading_level s1 = some l1 → get_heading_level s2 = some l2 →
      levelRank l2 ≤ levelRank l1) :=
  ⟨get_heading_level_ifs, get_heading_level_mono⟩

theorem claim_C4_witness :
    (12 : ℚ) ≤ 16 ∧ get_heading_level 12 = some "H3" ∧
      get_heading_level 16 = some "H1" ∧ levelRank "H1" ≤ levelRank "H3" :=
  ⟨by norm_num, by decide, by decide,
    claim_C4.2 12 16 "H3" "H1" (by norm_num) (by decide) (by decide)⟩

theorem is_heading_size {text : String} {s : ℚ} (h : is_heading text s = true) :
    (12 : ℚ) ≤ s := by
  unfold is_heading at h
  simp only [Bool.and_eq_true, decide_eq_true_eq] at h
  have := h.1.1.2
  rwa [fontThreshold_H3] at this

/-- Claim C2: `is_heading` holds iff all four conditions hold on the
trimmed lower-cased text and the average size: length at least 4, size at
least 12, not made only of digits/whitespace/hyphen/en-dash/period/
parentheses/colon, and not in the exclusion set; in particular `"Figure"`
at size 20 and `"12-34 (5)"` at size 18 are never headings. -/
theorem claim_C2 : ∀ (text : String) (s : ℚ),
    (is_heading text s = true ↔
      (4 ≤ (pyLower (pyStrip text)).length ∧ (12 : ℚ) ≤ s ∧
       ¬(∀ c ∈ (pyLower (pyStrip text)).toList,
          c.isDigit = true ∨ isPySpace c = true ∨ c = '-' ∨ c = '–' ∨ c = '.' ∨
          c = '(' ∨ c = ')' ∨ c = ':') ∧
       pyLower (pyStrip text) ≠ "figure" ∧ pyLower (pyStrip text) ≠ "table" ∧
       pyLower (pyStrip text) ≠ "appendix")) ∧
    is_heading "Figure" 20 = false ∧ is_heading "12-34 (5)" 18 = false := by
  intro text s
  refine ⟨?_, by decide, by decide⟩
  constructor
  · intro h
    unfold is_heading at h
    simp only [Bool.and_eq_true, decide_eq_true_eq, Bool.not_eq_true',
      decide_eq_false_iff_not] at h
    obtain ⟨⟨⟨h1, h2⟩, h3⟩, h4⟩ := h
    refine ⟨h1, by rwa [fontThreshold_H3] at h2, ?_, ?_⟩
    · intro hall
      unfold reMatchNumPunct at h3
      rw [Bool.and_eq_false_iff] at h3
      rcases h3 with h3 | h3
      · rw [Bool.not_eq_false'] at h3
        rw [List.isEmpty_iff] at h3
        have h1' : (4 : ℕ) ≤ (pyLower (pyStrip text)).length := h1
        have hlen : (pyLower (pyStrip text)).length = 0 := by
          have h0 : (pyLower (pyStrip text)).toList.length = 0 := by rw [h3]; rfl
          exact h0
        omega
      · rw [List.all_eq_false] at h3
        obtain ⟨c, hc, hcf⟩ := h3
        have hcl := hall c hc
        simp only [isNumPunctChar, Bool.or_eq_true, decide_eq_true_eq] at hcf
        tauto
    · simp only [EXCLUDED_HEADINGS, List.mem_cons, List.mem_singleton, not_or] at h4
      exact ⟨h4.1, h4.2.1, by simpa using h4.2.2⟩
  · rintro ⟨h1, h2, h3, h4, h5, h6⟩
    unfold is_heading
    simp only [Bool.and_eq_true, decide_eq_true_eq, Bool.not_eq_true',
      decide_eq_false_iff_not]
    refine ⟨⟨⟨h1, by rw [fontThreshold_H3]; exact h2⟩, ?_⟩, ?_⟩
    · unfold reMatchNumPunct
      rw [Bool.and_eq_false_iff]
      right
      rw [List.all_eq_false]
      push_neg at h3
      obtain ⟨c, hc, hcn⟩ := h3
      refine ⟨c, hc, ?_⟩
      simp only [isNumPunctChar, Bool.or_eq_true, decide_eq_true_eq]
      tauto
    · simp only [EXCLUDED_HEADINGS, List.mem_cons, List.mem_singleton, not_or]
      exact ⟨h4, h5, h6, by simp⟩

/-- Claim C9: once `is_heading` accepted a cluster (so its size is at least
the H3 threshold 12), `get_heading_level` always resolves a level: the
defensive drop branch for `None` is unreachable. -/
theorem claim_C9 : ∀ (text : String) (s : ℚ),
    is_heading text s = true → (get_heading_level s).isSome = true := by
  intro text s h
  have h12 := is_heading_size h
  rw [get_heading_level_ifs]
  split_ifs <;> simp_all

theorem claim_C9_witness :
    is_heading "Introduction" 12 = true ∧ (get_heading_level (12 : ℚ)).isSome = true :=
  ⟨by decide, claim_C9 "Introduction" 12 (by decide)⟩

/-- Claim C5: the produced outline is the entry list sorted by
`(page ascending, min_y0 descending)` — pairwise, an earlier entry has a
smaller page, or the same page and a `y0` at least as large — and the
output entries are the sorted entries with the internal `y0` stripped
(`OutEntry` has exactly the fields `level`, `text`, `page`). -/
theorem claim_C5 : ∀ (pages : List (List TextBox)) (fn : String),
    (List.insertionSort entryLE (extractState pages MAX_PAGES).outline).Pairwise entryLE ∧
    (extract_pdfminer_outline (.ok pages) fn).outline =
      (List.insertionSort entryLE (extractState pages MAX_PAGES).outline).map stripEntry :=
  fun pages fn => ⟨List.sorted_insertionSort entryLE _, rfl⟩

theorem processGroup_outline_mem {pn : ℕ} {st : ExtState} {g : List TextBox} {e : Entry}
    (h : e ∈ (processGroup pn st g).outline) : e ∈ st.outline ∨ e.page = pn + 1 := by
  simp only [processGroup] at h
  split at h
  · exact Or.inl h
  · split at h
    · split at h
      · exact Or.inl h
      · exact Or.inl h
    · split at h
      · split at h
        · rw [List.mem_append] at h
          rcases h with h | h
          · exact Or.inl h
          · rw [List.mem_singleton] at h
            exact Or.inr (by rw [h])
        · exact Or.inl h
      · exact Or.inl h

theorem foldl_groups_outline_mem (pn : ℕ) :
    ∀ (gs : List (List TextBox)) (st : ExtState) (e : Entry),
      e ∈ (gs.foldl (processGroup pn) st).outline → e ∈ st.outline ∨ e.page = pn + 1 := by
  intro gs
  induction gs with
  | nil => intro st e h; exact Or.inl h
  | cons g gs ih =>
    intro st e h
    rw [List.foldl_cons] at h
    rcases ih (processGroup pn st g) e h with h' | h'
    · exact processGroup_outline_mem h'
    · exact Or.inr h'

theorem processPage_outline_mem {pn : ℕ} {st : ExtState} {layout : List TextBox} {e : Entry}
    (h : e ∈ (processPage pn st layout).outline) : e ∈ st.outline ∨ e.page = pn + 1 :=
  foldl_groups_outline_mem pn _ st e h

theorem pages_foldl_bound :
    ∀ (l : List (List TextBox)) (n : ℕ) (st : ExtState),
      (∀ e ∈ st.outline, 1 ≤ e.page ∧ e.page ≤ n) →
      ∀ e ∈ ((List.enumFrom n l).foldl (fun st pl => processPage pl.1 st pl.2) st).outline,
        1 ≤ e.page ∧ e.page ≤ n + l.length := by
  intro l
  induction l with
  | nil => intro n st hst e he; simpa using hst e he
  | cons p rest ih =>
    intro n st hst e he
    rw [List.enumFrom_cons, List.foldl_cons] at he
    have hst' : ∀ e ∈ (processPage n st p).outline, 1 ≤ e.page ∧ e.page ≤ n + 1 := by
      intro e' he'
      rcases processPage_outline_mem he' with h' | h'
      · have := hst e' h'; omega
      · omega
    have hb := ih (n + 1) (processPage n st p) hst' e he
    obtain ⟨hb1, hb2⟩ := hb
    refine ⟨hb1, ?_⟩
    simp only [List.length_cons]
    omega

/-- Claim C6: at most `MAX_PAGES` (50) pages are processed, and every
output entry's page index lies in `[1, min(total_pages, MAX_PAGES)]`. -/
theorem claim_C6 : ∀ (pages : List (List TextBox)) (fn : String) (ent : OutEntry),
    ent ∈ (extract_pdfminer_outline (.ok pages) fn).outline →
    1 ≤ ent.page ∧ ent.page ≤ min pages.length MAX_PAGES := by
  intro pages fn ent hent
  obtain ⟨e, he, hse⟩ := List.mem_map.mp hent
  rw [List.mem_insertionSort] at he
  unfold extractState at he
  have hb := pages_foldl_bound (pages.take MAX_PAGES) 0 initState
    (by intro x hx; exact absurd hx (List.not_mem_nil x)) e (by simpa [List.enum] using he)
  obtain ⟨hb1, hb2⟩ := hb
  have hlen : (pages.take MAX_PAGES).length = min MAX_PAGES pages.length :=
    List.length_take _ _
  have hpage : ent.page = e.page := by rw [← hse]; rfl
  rw [hpage]
  rw [hlen] at hb2
  constructor
  · exact hb1
  · omega

theorem claim_C6_witness :
    1 ≤ (⟨"H2", "Background Data", 1⟩ : OutEntry).page ∧
      (⟨"H2", "Background Data", 1⟩ : OutEntry).page ≤ min witPagesC6.length MAX_PAGES :=
  claim_C6 witPagesC6 "x.pdf" ⟨"H2", "Background Data", 1⟩ (by decide)

theorem is_heading_empty (s : ℚ) : is_heading "" s = false := by
  have h : pyLower (pyStrip "") = "" := rfl
  simp only [is_heading, h]
  rw [show decide (MIN_TEXT_LENGTH ≤ ("" : String).length) = false from by decide]
  simp

theorem is_potential_title_empty (s : ℚ) : is_potential_title "" s = false := by
  have h : pyStrip "" = "" := rfl
  simp only [is_potential_title, h]
  rw [show decide (MIN_TEXT_LENGTH ≤ ("" : String).length) = false from by decide]
  simp

theorem is_potential_title_size {text : String} {s : ℚ}
    (h : is_potential_title text s = true) : TITLE_MIN_FONT_SIZE ≤ s := by
  unfold is_potential_title at h
  simp only [Bool.and_eq_true, decide_eq_true_eq] at h
  exact h.1.2

theorem headingEntryList_nil (pn : ℕ) : headingEntryList pn [] = [] := by
  unfold headingEntryList
  rw [show mergedText [] = "" from rfl, is_heading_empty]
  simp

theorem processGroup_not_title {pn : ℕ} {st : ExtState} {g : List TextBox}
    (h : ¬(pn = 0 ∧ st.is_first_text = true ∧
        is_potential_title (mergedText g) (clusterSize g) = true)) :
    (processGroup pn st g).title_candidate = st.title_candidate ∧
    (processGroup pn st g).largest_size = st.largest_size ∧
    (processGroup pn st g).is_first_text = st.is_first_text ∧
    (processGroup pn st g).outline = st.outline ++ headingEntryList pn g := by
  by_cases hg : g = []
  · subst hg
    simp only [processGroup, if_pos rfl]
    exact ⟨rfl, rfl, rfl, by rw [headingEntryList_nil]; simp⟩
  · simp only [processGroup, if_neg hg, if_neg h]
    by_cases hh : is_heading (mergedText g) (clusterSize g) = true
    · simp only [headingEntryList, if_pos hh]
      cases hgl : get_heading_level (clusterSize g) with
      | none => simp [hgl]
      | some lv => simp [hgl]
    · simp only [headingEntryList, if_neg hh]
      simp [hh]

theorem processGroup_title_taken {st : ExtState} {g : List TextBox} (hg : g ≠ [])
    (hflag : st.is_first_text = true)
    (hp : is_potential_title (mergedText g) (clusterSize g) = true) :
    processGroup 0 st g =
      (if st.largest_size < clusterSize g then
        { st with title_candidate := some (mergedText g),
                  largest_size := clusterSize g, is_first_text := false }
      else { st with is_first_text := false }) := by
  simp only [processGroup, if_neg hg]
  rw [if_pos (⟨trivial, hflag, hp⟩ : True ∧ st.is_first_text = true ∧
    is_potential_title (mergedText g) (clusterSize g) = true)]

theorem foldl_groups_flag_false (pn : ℕ) :
    ∀ (gs : List (List TextBox)) (st : ExtState), st.is_first_text = false →
      (gs.foldl (processGroup pn) st).title_candidate = st.title_candidate ∧
      (gs.foldl (processGroup pn) st).is_first_text = false := by
  intro gs
  induction gs with
  | nil => intro st h; exact ⟨rfl, h⟩
  | cons g gs ih =>
    intro st h
    have hn : ¬(pn = 0 ∧ st.is_first_text = true ∧
        is_potential_title (mergedText g) (clusterSize g) = true) := by
      rintro ⟨-, h2, -⟩
      rw [h] at h2
      exact Bool.noConfusion h2
    obtain ⟨ht, -, hf, -⟩ := processGroup_not_title hn
    rw [List.foldl_cons]
    have hrec := ih (processGroup pn st g) (hf.trans h)
    exact ⟨hrec.1.trans ht, hrec.2⟩

theorem foldl_groups_ne_zero {pn : ℕ} (hpn : pn ≠ 0) :
    ∀ (gs : List (List TextBox)) (st : ExtState),
      (gs.foldl (processGroup pn) st).title_candidate = st.title_candidate := by
  intro gs
  induction gs with
  | nil => intro st; rfl
  | cons g gs ih =>
    intro st
    rw [List.foldl_cons]
    have hn : ¬(pn = 0 ∧ st.is_first_text = true ∧
        is_potential_title (mergedText g) (clusterSize g) = true) := fun hc => hpn hc.1
    exact (ih (processGroup pn st g)).trans (processGroup_not_title hn).1

theorem processPage_title_ne_zero {pn : ℕ} {st : ExtState} {layout : List TextBox}
    (hpn : pn ≠ 0) : (processPage pn st layout).title_candidate = st.title_candidate :=
  foldl_groups_ne_zero hpn _ st

theorem enumFrom_fold_title :
    ∀ (l : List (List TextBox)) (n : ℕ), 1 ≤ n → ∀ st : ExtState,
      ((List.enumFrom n l).foldl (fun st pl => processPage pl.1 st pl.2) st).title_candidate =
        st.title_candidate := by
  intro l
  induction l with
  | nil => intro n _ st; rfl
  | cons p rest ih =>
    intro n hn st
    rw [List.enumFrom_cons, List.foldl_cons]
    rw [ih (n + 1) (by omega) _]
    exact processPage_title_ne_zero (by omega)

theorem foldl_groups_page0_find :
    ∀ (gs : List (List TextBox)) (st : ExtState),
      st.is_first_text = true → st.title_candidate = none → st.largest_size = 0 →
      (gs.foldl (processGroup 0) st).title_candidate =
        (gs.find? (fun g => is_potential_title (mergedText g) (clusterSize g))).map
          mergedText := by
  intro gs
  induction gs with
  | nil => intro st _ h _; simpa using h
  | cons g gs ih =>
    intro st hflag hcand hlarge
    rw [List.foldl_cons]
    by_cases hp : is_potential_title (mergedText g) (clusterSize g) = true
    · have hg : g ≠ [] := by
        intro e
        subst e
        rw [show mergedText ([] : List TextBox) = "" from rfl,
          is_potential_title_empty] at hp
        exact Bool.noConfusion hp
      have hsize := is_potential_title_size hp
      have hlt : st.largest_size < clusterSize g := by
        rw [hlarge]
        unfold TITLE_MIN_FONT_SIZE at hsize
        linarith
      rw [processGroup_title_taken hg hflag hp, if_pos hlt]
      have hrec := foldl_groups_flag_false 0 gs
        { st with title_candidate := some (mergedText g),
                  largest_size := clusterSize g, is_first_text := false } rfl
      rw [hrec.1]
      simp [List.find?_cons, hp]
    · have hn : ¬((0 : ℕ) = 0 ∧ st.is_first_text = true ∧
          is_potential_title (mergedText g) (clusterSize g) = true) := fun hc => hp hc.2.2
      obtain ⟨ht, hl, hf, -⟩ := processGroup_not_title hn
      rw [ih (processGroup 0 st g) (hf.trans hflag) (ht.trans hcand) (hl.trans hlarge)]
      have hpf : is_potential_title (mergedText g) (clusterSize g) = false :=
        Bool.not_eq_true _ ▸ hp
      simp [List.find?_cons, hpf]

theorem extractState_title (pages : List (List TextBox)) :
    (extractState pages MAX_PAGES).title_candidate =
      ((firstPageClusters pages).find?
        (fun g => is_potential_title (mergedText g) (clusterSize g))).map mergedText := by
  cases pages with
  | nil => rfl
  | cons p rest =>
    unfold extractState firstPageClusters
    rw [show MAX_PAGES = 49 + 1 from rfl, List.take_succ_cons, List.enum_cons,
      List.foldl_cons]
    rw [enumFrom_fold_title _ 1 (le_refl 1) _]
    exact foldl_groups_page0_find _ initState rfl rfl rfl

/-- Claim C1 (amended): on page 1 the title check is attempted at each
cluster in order until the first cluster passing `is_potential_title`;
that cluster becomes the title candidate (the stored initial size 0 is
always exceeded) and contributes no outline entry; every other cluster —
the failing ones before it, everything after it, and every cluster of
later pages — goes through heading classification only and never changes
the title candidate. -/
theorem claim_C1 :
    (∀ pages : List (List TextBox),
      (extractState pages MAX_PAGES).title_candidate =
        ((firstPageClusters pages).find?
          (fun g => is_potential_title (mergedText g) (clusterSize g))).map mergedText) ∧
    (∀ (pn : ℕ) (st : ExtState) (g : List TextBox),
      ¬(pn = 0 ∧ st.is_first_text = true ∧
          is_potential_title (mergedText g) (clusterSize g) = true) →
      (processGroup pn st g).title_candidate = st.title_candidate ∧
      (processGroup pn st g).outline = st.outline ++ headingEntryList pn g) ∧
    (∀ (st : ExtState) (g : List TextBox), g ≠ [] →
      st.is_first_text = true →
      is_potential_title (mergedText g) (clusterSize g) = true →
      (processGroup 0 st g).outline = st.outline ∧
      (processGroup 0 st g).is_first_text = false) := by
  refine ⟨extractState_title, ?_, ?_⟩
  · intro pn st g h
    obtain ⟨h1, -, -, h4⟩ := processGroup_not_title h
    exact ⟨h1, h4⟩
  · intro st g hg hflag hp
    rw [processGroup_title_taken hg hflag hp]
    by_cases hlt : st.largest_size < clusterSize g
    · rw [if_pos hlt]; exact ⟨rfl, rfl⟩
    · rw [if_neg hlt]; exact ⟨rfl, rfl⟩

theorem claim_C1_counterexample :
    firstPageClusters cexPagesC1 = [[⟨"abc", 20, 100⟩], [⟨"My Title", 20, 50⟩]] ∧
    is_potential_title (mergedText [⟨"abc", 20, 100⟩])
      (clusterSize [⟨"abc", 20, 100⟩]) = false ∧
    extract_pdfminer_outline (.ok cexPagesC1) "doc.pdf" = ⟨"My Title", []⟩ :=
  ⟨by decide, by decide, by decide⟩

theorem claim_C1_witness :
    (extractState cexPagesC1 MAX_PAGES).title_candidate = some "My Title" ∧
    (processGroup 1 initState [⟨"Heading Text", 14, 100⟩]).title_candidate = none ∧
    (processGroup 0 initState [⟨"My Title", 20, 50⟩]).outline = [] := by
  refine ⟨?_, ?_, ?_⟩
  · rw [claim_C1.1 cexPagesC1]
    decide
  · have h := (claim_C1.2.1 1 initState [⟨"Heading Text", 14, 100⟩]
      (by rintro ⟨h, -, -⟩; exact one_ne_zero h)).1
    rw [h]
    rfl
  · exact ((claim_C1.2.2 initState [⟨"My Title", 20, 50⟩]
      (by decide) rfl (by decide)).1).trans rfl

/-- Claim C8 (amended): when no title candidate was ever locked, the output
title is the filename with underscores replaced by spaces, every occurrence
of `.pdf` removed, and the result title-cased; the outline is the (possibly
empty) sorted entry list. -/
theorem claim_C8 : ∀ (pages : List (List TextBox)) (fn : String),
    (extractState pages MAX_PAGES).title_candidate = none →
    (extract_pdfminer_outline (.ok pages) fn).title = defaultTitle fn ∧
    (extract_pdfminer_outline (.ok pages) fn).outline =
      (List.insertionSort entryLE (extractState pages MAX_PAGES).outline).map
        stripEntry := by
  intro pages fn h
  constructor
  · show pyOr (extractState pages MAX_PAGES).title_candidate (defaultTitle fn) =
      defaultTitle fn
    rw [h]
    rfl
  · rfl

theorem claim_C8_counterexample :
    (extractState ([] : List (List TextBox)) MAX_PAGES).title_candidate = none ∧
    (extract_pdfminer_outline (.ok ([] : List (List TextBox))) "a.pdf_b.pdf").title =
      "A B" ∧
    defaultTitleSpec "a.pdf_b.pdf" = "A.Pdf B" ∧
    (extract_pdfminer_outline (.ok ([] : List (List TextBox))) "a.pdf_b.pdf").title ≠
      defaultTitleSpec "a.pdf_b.pdf" :=
  ⟨rfl, by decide, by decide, by decide⟩

theorem claim_C8_witness :
    (extractState ([] : List (List TextBox)) MAX_PAGES).title_candidate = none ∧
    (extract_pdfminer_outline (.ok ([] : List (List TextBox))) "my_file.pdf").title =
      defaultTitle "my_file.pdf" :=
  ⟨rfl, (claim_C8 [] "my_file.pdf" rfl).1⟩

end Theorems

end ProcessPdfs
